import Mathlib

/-!
Shallow embedding of `litellm/proxy/hooks/parallel_request_limiter.py`
(`_PROXY_MaxParallelRequestsHandler`): the pre-call admission hook, the
success-reconciliation hook and the failure-reconciliation hook, together
with the cache state they mutate. Python integers are modelled as `Int`
(they are unbounded); `sys.maxsize` is the 64-bit sentinel the source
compares against. Cache reads/writes are modelled as explicit state
passing; the async write dispatches are recorded as an operation log that
is then applied to the state.
-/

/-- The counter triple stored per bucket key
(`{"current_requests": _, "current_tpm": _, "current_rpm": _}`). -/
structure Counter where
  current_requests : Int
  current_tpm : Int
  current_rpm : Int
deriving DecidableEq, Repr

/-- `sys.maxsize` on a 64-bit CPython, used by the source as the
"unbounded" sentinel for missing limits. -/
def sysMaxsize : Int := 9223372036854775807

/-- Mirrors Python f-string interpolation of an `Optional[str]`:
`None` renders as the string `"None"`. -/
def pyStr : Option String → String
  | none => "None"
  | some s => s

/-- Bucket key for the five per-minute scopes:
`f"{id}::{precise_minute}::request_count"`. -/
def requestCountKey (id pm : String) : String :=
  id ++ "::" ++ pm ++ "::request_count"

/-- Bucket key for the per-(api_key, model) scope:
`f"{api_key}::{model}::{precise_minute}::request_count"`. -/
def modelRequestCountKey (apiKey model pm : String) : String :=
  apiKey ++ "::" ++ model ++ "::" ++ pm ++ "::request_count"

/-- The cache state the limiter reads and mutates: the per-minute counter
buckets, plus the process-local integer under the literal key
`"global_max_parallel_requests"`. -/
structure CacheState where
  counters : String → Option Counter
  globalRequests : Option Int

/-- A cache mutation issued by one of the hooks, in program order.
`incrGlobal` is `async_increment_cache` on the global key (local-only);
`setCounter` is `async_set_cache` of one bucket with a TTL;
`batchSet` is `async_batch_set_cache` of a write list with a TTL. -/
inductive CacheOp where
  | incrGlobal (delta : Int)
  | setCounter (key : String) (val : Counter) (ttl : Nat)
  | batchSet (writes : List (String × Counter)) (ttl : Nat)
deriving DecidableEq, Repr

/-- Apply a batch of (key, value) writes left to right
(`async_batch_set_cache`). -/
def applyWrites (f : String → Option Counter) (ws : List (String × Counter)) :
    String → Option Counter :=
  ws.foldl (fun g kv => fun q => if q = kv.1 then some kv.2 else g q) f

/-- Apply one cache mutation. `DualCache.async_increment_cache` creates the
key holding the delta when it is absent. -/
def applyOp (st : CacheState) : CacheOp → CacheState
  | CacheOp.incrGlobal d =>
      { st with globalRequests := some (st.globalRequests.getD 0 + d) }
  | CacheOp.setCounter k v _ =>
      { st with counters := fun q => if q = k then some v else st.counters q }
  | CacheOp.batchSet ws _ =>
      { st with counters := applyWrites st.counters ws }

/-- Apply a list of cache mutations in order. -/
def applyOps (st : CacheState) (ops : List CacheOp) : CacheState :=
  ops.foldl applyOp st

/-- The fields of `UserAPIKeyAuth` the limiter reads. The per-model limit
mappings are association lists standing for the Python dicts. -/
structure UserAPIKeyAuth where
  api_key : Option String
  user_id : Option String
  team_id : Option String
  end_user_id : Option String
  max_parallel_requests : Option Int
  tpm_limit : Option Int
  rpm_limit : Option Int
  user_tpm_limit : Option Int
  user_rpm_limit : Option Int
  team_tpm_limit : Option Int
  team_rpm_limit : Option Int
  end_user_tpm_limit : Option Int
  end_user_rpm_limit : Option Int
  model_tpm_limit : Option (List (String × Int))
  model_rpm_limit : Option (List (String × Int))

/-- Modelled from the spec: `get_key_model_tpm_limit` lives in
`litellm.proxy.auth.auth_utils`, outside the sources at hand; per the spec
the principal carries an optional mapping `model_tpm_limit: model→int`. -/
def get_key_model_tpm_limit (u : UserAPIKeyAuth) : Option (List (String × Int)) :=
  u.model_tpm_limit

/-- Modelled from the spec: `get_key_model_rpm_limit` lives in
`litellm.proxy.auth.auth_utils`, outside the sources at hand; per the spec
the principal carries an optional mapping `model_rpm_limit: model→int`. -/
def get_key_model_rpm_limit (u : UserAPIKeyAuth) : Option (List (String × Int)) :=
  u.model_rpm_limit

/-- Modelled from the spec: the constant
`RATE_LIMIT_ERROR_MESSAGE_FOR_VIRTUAL_KEY` is imported from
`litellm.constants`, outside the sources at hand; it only names the
virtual-key scope inside rejection messages. -/
def RATE_LIMIT_ERROR_MESSAGE_FOR_VIRTUAL_KEY : String := "Key"

/-- The detail string built by `raise_rate_limit_error`:
`f"Max parallel request limit reached {additional_details}"`. -/
def raise_rate_limit_error (additional_details : String) : String :=
  "Max parallel request limit reached " ++ additional_details

/-- `check_key_in_limits`: the check-and-reserve rule used for the user,
team and end-user scopes. Returns the writes appended to
`values_to_update_in_cache`, or the 429 detail string on rejection. -/
def check_key_in_limits (max_parallel_requests tpm_limit rpm_limit : Int)
    (current : Option Counter) (request_count_api_key : String)
    (rate_limit_type : String) : Except String (List (String × Counter)) :=
  match current with
  | none =>
      if max_parallel_requests = 0 ∨ tpm_limit = 0 ∨ rpm_limit = 0 then
        Except.error (raise_rate_limit_error
          ("Hit limit for " ++ rate_limit_type ++
            ". Current limits: max_parallel_requests: " ++
            toString max_parallel_requests ++
            ", tpm_limit: " ++ toString tpm_limit ++
            ", rpm_limit: " ++ toString rpm_limit))
      else
        Except.ok [(request_count_api_key, ⟨1, 0, 0⟩)]
  | some c =>
      if c.current_requests < max_parallel_requests ∧
          c.current_tpm < tpm_limit ∧ c.current_rpm < rpm_limit then
        Except.ok [(request_count_api_key,
          ⟨c.current_requests + 1, c.current_tpm, c.current_rpm⟩)]
      else
        Except.error
          ("LiteLLM Rate Limit Handler for rate limit type = " ++
            rate_limit_type ++ ". Crossed TPM, RPM Limit. current rpm: " ++
            toString c.current_rpm ++ ", rpm limit: " ++ toString rpm_limit ++
            ", current tpm: " ++ toString c.current_tpm ++ ", tpm limit: " ++
            toString tpm_limit)

/-- The inline api_key-scope check of `async_pre_call_hook` (lines 259-298):
skip when all three limits are the `sys.maxsize` sentinel, hard-reject when
any limit is exactly 0, reserve otherwise. -/
def apiKeyCheck (api_key : Option String)
    (max_parallel_requests tpm_limit rpm_limit : Int) (pm : String)
    (counters : String → Option Counter) :
    Except String (List (String × Counter)) :=
  match api_key with
  | none => Except.ok []
  | some k =>
      let key := requestCountKey k pm
      let current := counters key
      if max_parallel_requests = sysMaxsize ∧ tpm_limit = sysMaxsize ∧
          rpm_limit = sysMaxsize then
        Except.ok []
      else if max_parallel_requests = 0 ∨ tpm_limit = 0 ∨ rpm_limit = 0 then
        Except.error (raise_rate_limit_error
          ("Hit limit for " ++ RATE_LIMIT_ERROR_MESSAGE_FOR_VIRTUAL_KEY ++
            ": " ++ k ++ ". max_parallel_requests: " ++
            toString max_parallel_requests ++ ", tpm_limit: " ++
            toString tpm_limit ++ ", rpm_limit: " ++ toString rpm_limit))
      else
        match current with
        | none => Except.ok [(key, ⟨1, 0, 0⟩)]
        | some c =>
            if c.current_requests < max_parallel_requests ∧
                c.current_tpm < tpm_limit ∧ c.current_rpm < rpm_limit then
              Except.ok [(key,
                ⟨c.current_requests + 1, c.current_tpm, c.current_rpm⟩)]
            else
              Except.error (raise_rate_limit_error
                ("Hit limit for " ++
                  RATE_LIMIT_ERROR_MESSAGE_FOR_VIRTUAL_KEY ++ ": " ++ k ++
                  ". tpm_limit: " ++ toString tpm_limit ++ ", current_tpm " ++
                  toString c.current_tpm ++ " , rpm_limit: " ++
                  toString rpm_limit ++ " current rpm " ++
                  toString c.current_rpm ++ " "))

/-- Python dict-truthiness lookup of the per-model limit:
`tpm_limit_for_model = _tpm_limit_for_key_model.get(_model)` guarded by
`if _model is not None` and `if _tpm_limit_for_key_model:` (an empty or
missing dict yields `None`). -/
def modelLimitLookup (m : Option (List (String × Int)))
    (model : Option String) : Option Int :=
  match model with
  | none => none
  | some md =>
      match m with
      | none => none
      | some l => if l.isEmpty then none else l.lookup md

/-- The `elif rpm_limit_for_model is not None and current_rpm >= ...` step
of the per-model check, followed by appending the incremented value. -/
def perModelRpmStep (auth : UserAPIKeyAuth) (dataModel : Option String)
    (key : String) (c : Counter) (rpm_limit_for_model : Option Int) :
    Except String (List (String × Counter)) :=
  match rpm_limit_for_model with
  | some r =>
      if c.current_rpm ≥ r then
        Except.error (raise_rate_limit_error
          ("Hit RPM limit for model: " ++ pyStr dataModel ++ " on " ++
            RATE_LIMIT_ERROR_MESSAGE_FOR_VIRTUAL_KEY ++ ": " ++
            pyStr auth.api_key ++ ". rpm_limit: " ++ toString r ++
            ", current_rpm " ++ toString c.current_rpm ++ " "))
      else
        Except.ok [(key,
          ⟨c.current_requests + 1, c.current_tpm, c.current_rpm⟩)]
  | none =>
      Except.ok [(key,
        ⟨c.current_requests + 1, c.current_tpm, c.current_rpm⟩)]

/-- The per-(api_key, model) check of `async_pre_call_hook`
(lines 300-357), returning the writes it appends or the rejection detail. -/
def perModelCheck (auth : UserAPIKeyAuth) (dataModel : Option String)
    (pm : String) (counters : String → Option Counter) :
    Except String (List (String × Counter)) :=
  if get_key_model_tpm_limit auth ≠ none ∨
      get_key_model_rpm_limit auth ≠ none then
    let key := modelRequestCountKey (pyStr auth.api_key) (pyStr dataModel) pm
    let current := counters key
    let tpm_limit_for_model := modelLimitLookup (get_key_model_tpm_limit auth) dataModel
    let rpm_limit_for_model := modelLimitLookup (get_key_model_rpm_limit auth) dataModel
    match current with
    | none => Except.ok [(key, ⟨1, 0, 0⟩)]
    | some c =>
        if tpm_limit_for_model ≠ none ∨ rpm_limit_for_model ≠ none then
          match tpm_limit_for_model with
          | some t =>
              if c.current_tpm ≥ t then
                Except.error (raise_rate_limit_error
                  ("Hit TPM limit for model: " ++ pyStr dataModel ++ " on " ++
                    RATE_LIMIT_ERROR_MESSAGE_FOR_VIRTUAL_KEY ++ ": " ++
                    pyStr auth.api_key ++ ". tpm_limit: " ++ toString t ++
                    ", current_tpm " ++ toString c.current_tpm ++ " "))
              else
                perModelRpmStep auth dataModel key c rpm_limit_for_model
          | none => perModelRpmStep auth dataModel key c rpm_limit_for_model
        else
          Except.ok []
  else
    Except.ok []

/-- The user-scope leg of `async_pre_call_hook` (lines 377-401). -/
def userScopeCheck (auth : UserAPIKeyAuth) (pm : String)
    (counters : String → Option Counter) :
    Except String (List (String × Counter)) :=
  match auth.user_id with
  | none => Except.ok []
  | some uid =>
      let user_tpm_limit := auth.user_tpm_limit.getD sysMaxsize
      let user_rpm_limit := auth.user_rpm_limit.getD sysMaxsize
      let key := requestCountKey uid pm
      check_key_in_limits sysMaxsize user_tpm_limit user_rpm_limit
        (counters key) key "user"

/-- The team-scope leg of `async_pre_call_hook` (lines 403-429). -/
def teamScopeCheck (auth : UserAPIKeyAuth) (pm : String)
    (counters : String → Option Counter) :
    Except String (List (String × Counter)) :=
  match auth.team_id with
  | none => Except.ok []
  | some tid =>
      let team_tpm_limit := auth.team_tpm_limit.getD sysMaxsize
      let team_rpm_limit := auth.team_rpm_limit.getD sysMaxsize
      let key := requestCountKey tid pm
      check_key_in_limits sysMaxsize team_tpm_limit team_rpm_limit
        (counters key) key "team"

/-- The end-user-scope leg of `async_pre_call_hook` (lines 431-464); the
guard is Python truthiness (`if user_api_key_dict.end_user_id:`), so an
empty string is skipped like `None`. -/
def endUserScopeCheck (auth : UserAPIKeyAuth) (pm : String)
    (counters : String → Option Counter) :
    Except String (List (String × Counter)) :=
  match auth.end_user_id with
  | none => Except.ok []
  | some eid =>
      if eid = "" then Except.ok []
      else
        let end_user_tpm_limit := auth.end_user_tpm_limit.getD sysMaxsize
        let end_user_rpm_limit := auth.end_user_rpm_limit.getD sysMaxsize
        let key := requestCountKey eid pm
        check_key_in_limits sysMaxsize end_user_tpm_limit end_user_rpm_limit
          (counters key) key "customer"

/-- All per-scope admission checks of `async_pre_call_hook` in program
order (api_key, per-model, user, team, end_user), accumulating
`values_to_update_in_cache`; the first rejection wins. -/
def scopeChecks (auth : UserAPIKeyAuth) (dataModel : Option String)
    (pm : String) (counters : String → Option Counter) :
    Except String (List (String × Counter)) :=
  let max_parallel_requests := auth.max_parallel_requests.getD sysMaxsize
  let tpm_limit := auth.tpm_limit.getD sysMaxsize
  let rpm_limit := auth.rpm_limit.getD sysMaxsize
  Except.bind (apiKeyCheck auth.api_key max_parallel_requests tpm_limit
      rpm_limit pm counters) (fun w1 =>
    Except.bind (perModelCheck auth dataModel pm counters) (fun w2 =>
      Except.bind (userScopeCheck auth pm counters) (fun w3 =>
        Except.bind (teamScopeCheck auth pm counters) (fun w4 =>
          Except.bind (endUserScopeCheck auth pm counters) (fun w5 =>
            Except.ok (w1 ++ w2 ++ w3 ++ w4 ++ w5))))))

/-- The tail of `async_pre_call_hook`: dispatch the accumulated writes as
one `async_batch_set_cache` with TTL 60 when no scope rejected; on
rejection the pending list is discarded and only the eagerly performed
operations in `ops0` remain. -/
def preCallFinish (auth : UserAPIKeyAuth) (dataModel : Option String)
    (pm : String) (counters : String → Option Counter)
    (ops0 : List CacheOp) : Except String Unit × List CacheOp :=
  match scopeChecks auth dataModel pm counters with
  | Except.error d => (Except.error d, ops0)
  | Except.ok ws => (Except.ok (), ops0 ++ [CacheOp.batchSet ws 60])

/-- `async_pre_call_hook`: the pre-call admission. `gmpr` is
`data["metadata"].get("global_max_parallel_requests")`, `dataModel` is
`data.get("model")`, `pm` the precise minute. Returns the admission result
(`Except.error` carries the 429 detail) and the cache operations performed,
including the eager global increment that precedes scope evaluation. -/
def async_pre_call_hook (auth : UserAPIKeyAuth) (gmpr : Option Int)
    (dataModel : Option String) (pm : String) (st : CacheState) :
    Except String Unit × List CacheOp :=
  match gmpr with
  | none => preCallFinish auth dataModel pm st.counters []
  | some cap =>
      let current_global_requests := st.globalRequests.getD 1
      if current_global_requests ≥ cap then
        (Except.error (raise_rate_limit_error
          ("Hit Global Limit: Limit=" ++ toString cap ++ ", current: " ++
            toString current_global_requests)), [])
      else
        preCallFinish auth dataModel pm st.counters [CacheOp.incrGlobal 1]

/-- The per-bucket update of `async_log_success_event`:
`{max(current_requests-1,0), current_tpm+total_tokens, current_rpm+1}`. -/
def successNew (c : Counter) (total_tokens : Int) : Counter :=
  ⟨max (c.current_requests - 1) 0, c.current_tpm + total_tokens,
    c.current_rpm + 1⟩

/-- The kwargs fields `async_log_success_event` reads. The two `has_*`
booleans mirror the `"model_rpm_limit" in user_api_key_metadata` /
`"model_tpm_limit" in user_api_key_metadata` membership tests, and
`has_model_max_budget` mirrors `user_api_key_model_max_budget is not None`. -/
structure SuccessKwargs where
  global_max_parallel_requests : Option Int
  user_api_key : Option String
  user_api_key_user_id : Option String
  user_api_key_team_id : Option String
  user_api_key_end_user_id : Option String
  model_group : Option String
  has_model_rpm_limit_metadata : Bool
  has_model_tpm_limit_metadata : Bool
  has_model_max_budget : Bool
  total_tokens : Int

/-- One success-reconciliation leg for the user/team/end_user scopes,
whose absent-counter default is `{current_requests: 1,
current_tpm: total_tokens, current_rpm: 1}` in the source. -/
def successScopeWrites (idOpt : Option String) (pm : String)
    (counters : String → Option Counter) (total_tokens : Int) :
    List (String × Counter) :=
  match idOpt with
  | none => []
  | some i =>
      let key := requestCountKey i pm
      let current := (counters key).getD ⟨1, total_tokens, 1⟩
      [(key, successNew current total_tokens)]

/-- The api-key-scope success leg (absent-counter default `{1, 0, 0}`). -/
def successApiKeyWrites (kw : SuccessKwargs) (pm : String)
    (counters : String → Option Counter) : List (String × Counter) :=
  match kw.user_api_key with
  | none => []
  | some k =>
      let key := requestCountKey k pm
      let current := (counters key).getD ⟨1, 0, 0⟩
      [(key, successNew current kw.total_tokens)]

/-- The (api_key, model-group) success leg, guarded by the key metadata
carrying `model_rpm_limit`/`model_tpm_limit` or a per-model budget
(absent-counter default `{1, 0, 0}`). -/
def successModelGroupWrites (kw : SuccessKwargs) (pm : String)
    (counters : String → Option Counter) : List (String × Counter) :=
  match kw.user_api_key, kw.model_group with
  | some k, some mg =>
      if kw.has_model_rpm_limit_metadata || kw.has_model_tpm_limit_metadata
          || kw.has_model_max_budget then
        let key := modelRequestCountKey k mg pm
        let current := (counters key).getD ⟨1, 0, 0⟩
        [(key, successNew current kw.total_tokens)]
      else []
  | _, _ => []

/-- The full write list `async_log_success_event` accumulates, in program
order: api_key, (api_key, model-group), user, team, end_user. -/
def successWrites (kw : SuccessKwargs) (pm : String)
    (counters : String → Option Counter) : List (String × Counter) :=
  successApiKeyWrites kw pm counters ++
    successModelGroupWrites kw pm counters ++
    successScopeWrites kw.user_api_key_user_id pm counters kw.total_tokens ++
    successScopeWrites kw.user_api_key_team_id pm counters kw.total_tokens ++
    successScopeWrites kw.user_api_key_end_user_id pm counters
      kw.total_tokens

/-- `async_log_success_event`: decrement the global in-flight counter when
the request carried a global cap, then batch-write the reconciled buckets
for every present scope with TTL 60. -/
def async_log_success_event (kw : SuccessKwargs) (pm : String)
    (st : CacheState) : List CacheOp :=
  let gOps : List CacheOp :=
    match kw.global_max_parallel_requests with
    | some _ => [CacheOp.incrGlobal (-1)]
    | none => []
  gOps ++ [CacheOp.batchSet (successWrites kw pm st.counters) 60]

/-- The standard rejection phrase the failure hook greps the exception
text for. -/
def failure_limit_message : String := "Max parallel request limit reached"

/-- Python `needle in hay` on strings: substring containment. -/
def strContains (hay needle : String) : Bool :=
  decide (needle.data <:+: hay.data)

/-- The kwargs fields `async_log_failure_event` reads. -/
structure FailureKwargs where
  global_max_parallel_requests : Option Int
  user_api_key : Option String
  exception_msg : String

/-- `async_log_failure_event`: return with no mutation when the metadata
carries no `user_api_key` or when the exception text contains the standard
rejection phrase; otherwise decrement the global in-flight counter (when a
global cap was set) and release the api_key-scope reservation with TTL 60. -/
def async_log_failure_event (kw : FailureKwargs) (pm : String)
    (st : CacheState) : List CacheOp :=
  match kw.user_api_key with
  | none => []
  | some k =>
      if strContains kw.exception_msg failure_limit_message then []
      else
        let gOps : List CacheOp :=
          match kw.global_max_parallel_requests with
          | some _ => [CacheOp.incrGlobal (-1)]
          | none => []
        let key := requestCountKey k pm
        let current := (st.counters key).getD ⟨1, 0, 0⟩
        gOps ++ [CacheOp.setCounter key
          ⟨max (current.current_requests - 1) 0, current.current_tpm,
            current.current_rpm⟩ 60]

/-- The state after running the failure hook. -/
def failureFinalState (kw : FailureKwargs) (pm : String) (st : CacheState) :
    CacheState :=
  applyOps st (async_log_failure_event kw pm st)

/-- One invocation of one of the three hooks, for reasoning about
operation sequences. -/
inductive GateOp where
  | pre (auth : UserAPIKeyAuth) (gmpr : Option Int)
      (dataModel : Option String) (pm : String)
  | success (kw : SuccessKwargs) (pm : String)
  | failure (kw : FailureKwargs) (pm : String)

/-- Run one hook invocation against the cache state. -/
def runOp (st : CacheState) : GateOp → CacheState
  | GateOp.pre auth g m pm => applyOps st (async_pre_call_hook auth g m pm st).2
  | GateOp.success kw pm => applyOps st (async_log_success_event kw pm st)
  | GateOp.failure kw pm => applyOps st (async_log_failure_event kw pm st)

/-- Run a sequence of hook invocations. -/
def runOps (st : CacheState) (ops : List GateOp) : CacheState :=
  ops.foldl runOp st

/-- The fields of a Python `datetime` that `time_to_next_minute` looks at:
the whole minutes (encoding date, hour and minute) plus the second and
microsecond within the minute. -/
structure PyDateTime where
  minutes : Int
  second : Nat
  microsecond : Nat

/-- The instant as rational seconds. -/
def PyDateTime.toSeconds (d : PyDateTime) : ℚ :=
  60 * (d.minutes : ℚ) + (d.second : ℚ) + (d.microsecond : ℚ) / 1000000

/-- `now + timedelta(minutes=1)`. -/
def PyDateTime.addOneMinute (d : PyDateTime) : PyDateTime :=
  ⟨d.minutes + 1, d.second, d.microsecond⟩

/-- `.replace(second=0, microsecond=0)`. -/
def PyDateTime.replaceZero (d : PyDateTime) : PyDateTime :=
  ⟨d.minutes, 0, 0⟩

/-- `time_to_next_minute`:
`((now + timedelta(minutes=1)).replace(second=0, microsecond=0) - now).total_seconds()`. -/
def time_to_next_minute (now : PyDateTime) : ℚ :=
  (now.addOneMinute.replaceZero).toSeconds - now.toSeconds

/-- The counter-triple wire-format invariant: all three fields
non-negative. -/
def Counter.Nonneg (c : Counter) : Prop :=
  0 ≤ c.current_requests ∧ 0 ≤ c.current_tpm ∧ 0 ≤ c.current_rpm

/-- Every bucket stored in the cache satisfies the wire-format
invariant. -/
def NonnegCounters (f : String → Option Counter) : Prop :=
  ∀ k c, f k = some c → c.Nonneg

/-- Every counter value a cache mutation writes is non-negative. -/
def CacheOp.goodWrites : CacheOp → Prop
  | CacheOp.incrGlobal _ => True
  | CacheOp.setCounter _ v _ => v.Nonneg
  | CacheOp.batchSet ws _ => ∀ w ∈ ws, (Prod.snd w).Nonneg

/-- A hook invocation reports a non-negative token total (success hooks
report `usage.total_tokens`; the other hooks carry no token count). -/
def GateOp.tokensOk : GateOp → Prop
  | GateOp.success kw _ => 0 ≤ kw.total_tokens
  | _ => True

/-- An empty cache: no buckets, no global in-flight counter. -/
def stEmpty : CacheState :=
  { counters := fun _ => none, globalRequests := none }

/-- A principal with no ids and no limits configured. -/
def authEmpty : UserAPIKeyAuth :=
  { api_key := none, user_id := none, team_id := none, end_user_id := none,
    max_parallel_requests := none, tpm_limit := none, rpm_limit := none,
    user_tpm_limit := none, user_rpm_limit := none,
    team_tpm_limit := none, team_rpm_limit := none,
    end_user_tpm_limit := none, end_user_rpm_limit := none,
    model_tpm_limit := none, model_rpm_limit := none }

/-- A principal whose only present scope is the user id, with no limits. -/
def auth5 : UserAPIKeyAuth := { authEmpty with user_id := some "u1" }

/-- A principal with an api key and the per-model override
`model_rpm_limit = {"gpt-4": 1}`. -/
def auth6 : UserAPIKeyAuth :=
  { authEmpty with
    api_key := some "sk",
    model_rpm_limit := some [("gpt-4", 1)] }

/-- The cache after the first gpt-4 admission's pending write lands. -/
def st1 : CacheState :=
  applyOps stEmpty (async_pre_call_hook auth6 none (some "gpt-4") "m" stEmpty).2

/-- Success kwargs for the gpt-4 request of `auth6`: the key metadata
carries `model_rpm_limit`, so the model-group bucket reconciles. -/
def kw6 : SuccessKwargs :=
  { global_max_parallel_requests := none, user_api_key := some "sk",
    user_api_key_user_id := none, user_api_key_team_id := none,
    user_api_key_end_user_id := none, model_group := some "gpt-4",
    has_model_rpm_limit_metadata := true,
    has_model_tpm_limit_metadata := false,
    has_model_max_budget := false, total_tokens := 0 }

/-- The cache after the first gpt-4 request also reconciled on success. -/
def stS : CacheState :=
  applyOps st1 (async_log_success_event kw6 "m" st1)

/-- Success kwargs with only a user id present and 137 total tokens. -/
def kwC3 : SuccessKwargs :=
  { global_max_parallel_requests := none, user_api_key := none,
    user_api_key_user_id := some "u1", user_api_key_team_id := none,
    user_api_key_end_user_id := none, model_group := none,
    has_model_rpm_limit_metadata := false,
    has_model_tpm_limit_metadata := false,
    has_model_max_budget := false, total_tokens := 137 }

/-- Failure kwargs: a global cap was set, the api key is present, and the
upstream error is unrelated to the limiter. -/
def kwC9 : FailureKwargs :=
  { global_max_parallel_requests := some 2, user_api_key := some "k",
    exception_msg := "boom" }

/-- A principal whose api-key tpm limit is the hard zero. -/
def authZero : UserAPIKeyAuth :=
  { authEmpty with api_key := some "k", tpm_limit := some 0 }

/-! Theorems. -/

/-- A substring of the left part is a substring of the concatenation. -/
theorem subListAppendLeft {x a : List Char} (b : List Char)
    (h : x <:+: a) : x <:+: a ++ b := by
  obtain ⟨s, t, hst⟩ := h
  exact ⟨s, t ++ b, by rw [← hst]; simp⟩

/-- A substring of the right part is a substring of the concatenation. -/
theorem subListAppendRight {x b : List Char} (a : List Char)
    (h : x <:+: b) : x <:+: a ++ b := by
  obtain ⟨s, t, hst⟩ := h
  exact ⟨a ++ s, t, by rw [← hst]; simp⟩

/-- Claim C1 (counterexample): with `global_max_parallel_requests = 1` and
no global in-flight counter in the cache, the very first admission is
already rejected (the absent counter is read as 1), contradicting the
claim that the first admission is admitted. -/
theorem preCall_global_first_reject :
    (async_pre_call_hook authEmpty (some 1) none "2024-01-01-00-00" stEmpty).1 =
      Except.error
        "Max parallel request limit reached Hit Global Limit: Limit=1, current: 1" ∧
    strContains
      "Max parallel request limit reached Hit Global Limit: Limit=1, current: 1"
      "Global Limit" = true :=
  ⟨rfl, by decide⟩

/-- Claim C1 (amended): the global pre-check reads an absent counter as 1,
so an admission is rejected with a reason containing "Global Limit"
exactly when the read value (absent reads as 1) is at least the requested
cap — in particular with cap 1 the first admission is already rejected —
and is admitted, incrementing the counter, when the read value is
strictly below the cap. -/
theorem preCall_global_limit (cap : Int) (st : CacheState) (pm : String) :
    (cap ≤ st.globalRequests.getD 1 →
      ∃ d, (async_pre_call_hook authEmpty (some cap) none pm st).1 =
          Except.error d ∧ "Global Limit".data <:+: d.data) ∧
    (st.globalRequests.getD 1 < cap →
      (async_pre_call_hook authEmpty (some cap) none pm st).1 =
          Except.ok () ∧
        (async_pre_call_hook authEmpty (some cap) none pm st).2 =
          [CacheOp.incrGlobal 1, CacheOp.batchSet [] 60]) := by
  constructor
  · intro h
    refine ⟨raise_rate_limit_error
      ("Hit Global Limit: Limit=" ++ toString cap ++ ", current: " ++
        toString (st.globalRequests.getD 1)), ?_, ?_⟩
    · simp only [async_pre_call_hook]
      rw [if_pos h]
    · have hB : "Global Limit".data <:+: "Hit Global Limit: Limit=".data := by
        decide
      simp only [raise_rate_limit_error, String.data_append, List.append_assoc]
      exact subListAppendRight _ (subListAppendLeft _ hB)
  · intro h
    have hn : ¬ st.globalRequests.getD 1 ≥ cap := not_le.mpr h
    constructor
    · simp only [async_pre_call_hook]
      rw [if_neg hn]
      rfl
    · simp only [async_pre_call_hook]
      rw [if_neg hn]
      rfl

/-- Witness for C1's amended theorem at a concrete input: cap 1 with an
absent counter rejects with "Global Limit"; cap 2 with an absent counter
admits and increments. -/
theorem preCall_global_limit_witness :
    (∃ d, (async_pre_call_hook authEmpty (some 1) none "m" stEmpty).1 =
        Except.error d ∧ "Global Limit".data <:+: d.data) ∧
    ((async_pre_call_hook authEmpty (some 2) none "m" stEmpty).1 =
        Except.ok () ∧
      (async_pre_call_hook authEmpty (some 2) none "m" stEmpty).2 =
        [CacheOp.incrGlobal 1, CacheOp.batchSet [] 60]) :=
  ⟨(preCall_global_limit 1 stEmpty "m").1 (by decide),
    (preCall_global_limit 2 stEmpty "m").2 (by decide)⟩

/-- Claim C4 (counterexample): at an exact minute boundary (second 0,
microsecond 0) the retry-after value is 60, which is not in the claimed
half-open interval [0, 60). -/
theorem time_to_next_minute_boundary :
    time_to_next_minute ⟨0, 0, 0⟩ = 60 ∧
    ¬ time_to_next_minute ⟨0, 0, 0⟩ < 60 := by
  constructor
  · norm_num [time_to_next_minute, PyDateTime.toSeconds,
      PyDateTime.addOneMinute, PyDateTime.replaceZero]
  · norm_num [time_to_next_minute, PyDateTime.toSeconds,
      PyDateTime.addOneMinute, PyDateTime.replaceZero]

/-- Claim C4 (amended): for every wall-clock instant, the retry-after
value is in the half-open interval (0, 60] and equals
`60 - now.second - now.microsecond / 1e6`. -/
theorem time_to_next_minute_span (now : PyDateTime)
    (hs : now.second < 60) (hu : now.microsecond < 1000000) :
    0 < time_to_next_minute now ∧ time_to_next_minute now ≤ 60 ∧
    time_to_next_minute now =
      60 - (now.second : ℚ) - (now.microsecond : ℚ) / 1000000 := by
  have heq : time_to_next_minute now =
      60 - (now.second : ℚ) - (now.microsecond : ℚ) / 1000000 := by
    simp only [time_to_next_minute, PyDateTime.toSeconds,
      PyDateTime.addOneMinute, PyDateTime.replaceZero]
    push_cast
    ring
  have h1 : (now.second : ℚ) ≤ 59 := by
    exact_mod_cast Nat.lt_succ_iff.mp hs
  have h2 : (now.microsecond : ℚ) / 1000000 < 1 := by
    rw [div_lt_one (by norm_num)]
    exact_mod_cast hu
  have h3 : (0 : ℚ) ≤ (now.microsecond : ℚ) / 1000000 := by positivity
  have h0 : (0 : ℚ) ≤ (now.second : ℚ) := Nat.cast_nonneg _
  refine ⟨?_, ?_, heq⟩ <;> rw [heq] <;> linarith

/-- Witness for C4's amended theorem at second 30, microsecond 0. -/
theorem time_to_next_minute_span_witness :
    0 < time_to_next_minute ⟨0, 30, 0⟩ ∧
    time_to_next_minute ⟨0, 30, 0⟩ ≤ 60 ∧
    time_to_next_minute ⟨0, 30, 0⟩ =
      60 - ((⟨0, 30, 0⟩ : PyDateTime).second : ℚ) -
        ((⟨0, 30, 0⟩ : PyDateTime).microsecond : ℚ) / 1000000 :=
  time_to_next_minute_span ⟨0, 30, 0⟩ (by norm_num) (by norm_num)

/-- Claim C5 (counterexample): a pre-call admission for a principal whose
only present scope is a user id with all limits unbounded still schedules
a counter write for that scope (the reservation `{1, 0, 0}`), contradicting
the claim that the rule skips with no counter write. -/
theorem preCall_unbounded_user_write :
    async_pre_call_hook auth5 none none "m" stEmpty =
      (Except.ok (),
        [CacheOp.batchSet [("u1::m::request_count", ⟨1, 0, 0⟩)] 60]) := rfl

/-- Claim C5 (amended): when all three limits are unbounded, the inline
api_key-scope check skips (no rejection, no write), but the shared
check-and-reserve rule used for the user, team and end_user scopes does
not skip: it never rejects (for counters within the 64-bit sentinel) yet
still schedules exactly one counter write, even when the counter is
absent. -/
theorem unbounded_limits_rule (k pm key rt : String)
    (counters : String → Option Counter) (current : Option Counter)
    (hc : ∀ c, current = some c → c.current_requests < sysMaxsize ∧
      c.current_tpm < sysMaxsize ∧ c.current_rpm < sysMaxsize) :
    apiKeyCheck (some k) sysMaxsize sysMaxsize sysMaxsize pm counters =
      Except.ok [] ∧
    ∃ v, check_key_in_limits sysMaxsize sysMaxsize sysMaxsize current key rt =
      Except.ok [(key, v)] := by
  constructor
  · simp [apiKeyCheck]
  · cases current with
    | none =>
        refine ⟨⟨1, 0, 0⟩, ?_⟩
        simp only [check_key_in_limits]
        rw [if_neg (by decide)]
    | some c =>
        obtain ⟨h1, h2, h3⟩ := hc c rfl
        refine ⟨⟨c.current_requests + 1, c.current_tpm, c.current_rpm⟩, ?_⟩
        simp only [check_key_in_limits]
        rw [if_pos ⟨h1, h2, h3⟩]

/-- Witness for C5's amended theorem at a concrete absent counter. -/
theorem unbounded_limits_rule_witness :
    apiKeyCheck (some "k") sysMaxsize sysMaxsize sysMaxsize "m"
      (fun _ => none) = Except.ok [] ∧
    ∃ v, check_key_in_limits sysMaxsize sysMaxsize sysMaxsize none "q" "user" =
      Except.ok [("q", v)] :=
  unbounded_limits_rule "k" "m" "q" "user" (fun _ => none) none
    (fun c h => by cases h)

/-- Claim C6 (counterexample): with `model_rpm_limit = {"gpt-4": 1}`, two
consecutive admissions for gpt-4 in the same minute, the first admission's
pending write applied and no reconciliation in between, both succeed — the
second is not rejected, because admission leaves `current_rpm` at 0 and
the per-model RPM gate compares `current_rpm >= limit`. -/
theorem perModel_second_admit_not_rejected :
    (async_pre_call_hook auth6 none (some "gpt-4") "m" stEmpty).1 =
      Except.ok () ∧
    (async_pre_call_hook auth6 none (some "gpt-4") "m" st1).1 =
      Except.ok () := ⟨rfl, rfl⟩

/-- Claim C6 (amended): with `model_rpm_limit = {"gpt-4": 1}`, the second
gpt-4 admission in the same minute is admitted when only the first
admission's pending write has been applied; it is rejected with a reason
containing "RPM limit for model: gpt-4" once the first request's success
reconciliation has advanced `current_rpm` to 1; an admission for gpt-3.5
succeeds in the same minute either way. -/
theorem perModel_rpm_after_reconciliation :
    (async_pre_call_hook auth6 none (some "gpt-4") "m" st1).1 =
      Except.ok () ∧
    (async_pre_call_hook auth6 none (some "gpt-4") "m" stS).1 =
      Except.error
        "Max parallel request limit reached Hit RPM limit for model: gpt-4 on Key: sk. rpm_limit: 1, current_rpm 1 " ∧
    strContains
      "Max parallel request limit reached Hit RPM limit for model: gpt-4 on Key: sk. rpm_limit: 1, current_rpm 1 "
      "RPM limit for model: gpt-4" = true ∧
    (async_pre_call_hook auth6 none (some "gpt-3.5") "m" stS).1 =
      Except.ok () :=
  ⟨rfl, rfl, by decide, rfl⟩

/-- Claim C7: a configured limit of exactly 0 (max_parallel_requests,
tpm_limit or rpm_limit) makes every pre-call admission against that scope
reject, whatever the scope counter holds (any wire-format value, or
absent), both for the inline api_key-scope check and for the shared rule
used by the user, team and end_user scopes. -/
theorem zero_limit_denies_all (mpr tpml rpml : Int)
    (h0 : mpr = 0 ∨ tpml = 0 ∨ rpml = 0) (k pm key rt : String)
    (counters : String → Option Counter) (current : Option Counter)
    (hc : ∀ c, current = some c → c.Nonneg) :
    (∃ d, apiKeyCheck (some k) mpr tpml rpml pm counters = Except.error d) ∧
    (∃ d, check_key_in_limits mpr tpml rpml current key rt =
      Except.error d) := by
  have hns : ¬ (mpr = sysMaxsize ∧ tpml = sysMaxsize ∧ rpml = sysMaxsize) := by
    rintro ⟨e1, e2, e3⟩
    rcases h0 with h | h | h
    · rw [h] at e1; exact absurd e1 (by decide)
    · rw [h] at e2; exact absurd e2 (by decide)
    · rw [h] at e3; exact absurd e3 (by decide)
  constructor
  · simp only [apiKeyCheck]
    rw [if_neg hns, if_pos h0]
    exact ⟨_, rfl⟩
  · cases current with
    | none =>
        simp only [check_key_in_limits]
        rw [if_pos h0]
        exact ⟨_, rfl⟩
    | some c =>
        obtain ⟨h1, h2, h3⟩ := hc c rfl
        have hlt : ¬ (c.current_requests < mpr ∧ c.current_tpm < tpml ∧
            c.current_rpm < rpml) := by
          rintro ⟨l1, l2, l3⟩
          rcases h0 with h | h | h <;> subst h <;> omega
        simp only [check_key_in_limits]
        rw [if_neg hlt]
        exact ⟨_, rfl⟩

/-- Witness for C7 at a concrete input: `max_parallel_requests = 0` with
an absent api-key bucket and a present all-zero user bucket. -/
theorem zero_limit_denies_all_witness :
    (∃ d, apiKeyCheck (some "k") 0 100 100 "m" (fun _ => none) =
      Except.error d) ∧
    (∃ d, check_key_in_limits 0 100 100 (some ⟨0, 0, 0⟩) "q" "user" =
      Except.error d) :=
  zero_limit_denies_all 0 100 100 (Or.inl rfl) "k" "m" "q" "user"
    (fun _ => none) (some ⟨0, 0, 0⟩)
    (fun c h => by cases h; exact ⟨le_refl 0, le_refl 0, le_refl 0⟩)

/-- Claim C8: whenever pre-call admission rejects, none of the pending
per-minute counter writes accumulated during that admission reach the
cache — the bucket map after applying the hook's operations equals the
initial one (only the eager global increment may have happened, and it
does not touch any bucket). -/
theorem reject_discards_pending_writes (auth : UserAPIKeyAuth)
    (gmpr : Option Int) (dataModel : Option String) (pm : String)
    (st : CacheState)
    (h : ∃ d, (async_pre_call_hook auth gmpr dataModel pm st).1 =
      Except.error d) :
    (applyOps st (async_pre_call_hook auth gmpr dataModel pm st).2).counters =
      st.counters := by
  obtain ⟨d, hd⟩ := h
  cases gmpr with
  | none =>
      simp only [async_pre_call_hook, preCallFinish] at hd ⊢
      cases hsc : scopeChecks auth dataModel pm st.counters with
      | error e => simp [hsc, applyOps]
      | ok ws => rw [hsc] at hd; simp at hd
  | some cap =>
      by_cases hge : st.globalRequests.getD 1 ≥ cap
      · simp only [async_pre_call_hook] at hd ⊢
        rw [if_pos hge]
        simp [applyOps]
      · simp only [async_pre_call_hook] at hd ⊢
        rw [if_neg hge] at hd ⊢
        simp only [preCallFinish] at hd ⊢
        cases hsc : scopeChecks auth dataModel pm st.counters with
        | error e => simp [hsc, applyOps, applyOp]
        | ok ws => rw [hsc] at hd; simp at hd

/-- Witness for C8 at a concrete input: a principal with `tpm_limit = 0`
is rejected and the bucket map is unchanged. -/
theorem reject_discards_pending_writes_witness :
    (applyOps stEmpty
        (async_pre_call_hook authZero none none "m" stEmpty).2).counters =
      stEmpty.counters :=
  reject_discards_pending_writes authZero none none "m" stEmpty ⟨_, rfl⟩

/-- Claim C9: when the metadata carries an api key, failure reconciliation
is a no-op when the exception text contains "Max parallel request limit
reached"; otherwise it decrements the global in-flight counter exactly
when a global cap was set and writes, for the api_key scope only (every
other bucket is untouched), the counter with `current_requests` floored
at 0 and `current_tpm`/`current_rpm` unchanged, with TTL 60. -/
theorem failure_reconciliation_behavior (kw : FailureKwargs) (pm : String)
    (st : CacheState) (k : String) (hk : kw.user_api_key = some k) :
    (strContains kw.exception_msg failure_limit_message = true →
      async_log_failure_event kw pm st = [] ∧
      failureFinalState kw pm st = st) ∧
    (strContains kw.exception_msg failure_limit_message = false →
      async_log_failure_event kw pm st =
        (match kw.global_max_parallel_requests with
          | some _ => [CacheOp.incrGlobal (-1)]
          | none => []) ++
        [CacheOp.setCounter (requestCountKey k pm)
          ⟨max (((st.counters (requestCountKey k pm)).getD
              ⟨1, 0, 0⟩).current_requests - 1) 0,
            ((st.counters (requestCountKey k pm)).getD ⟨1, 0, 0⟩).current_tpm,
            ((st.counters (requestCountKey k pm)).getD ⟨1, 0, 0⟩).current_rpm⟩
          60] ∧
      ∀ q, q ≠ requestCountKey k pm →
        (failureFinalState kw pm st).counters q = st.counters q) := by
  constructor
  · intro hmsg
    have he : async_log_failure_event kw pm st = [] := by
      simp [async_log_failure_event, hk, hmsg]
    exact ⟨he, by rw [failureFinalState, he]; rfl⟩
  · intro hmsg
    cases hg : kw.global_max_parallel_requests with
    | none =>
        have he : async_log_failure_event kw pm st =
            [CacheOp.setCounter (requestCountKey k pm)
              ⟨max (((st.counters (requestCountKey k pm)).getD
                  ⟨1, 0, 0⟩).current_requests - 1) 0,
                ((st.counters (requestCountKey k pm)).getD
                  ⟨1, 0, 0⟩).current_tpm,
                ((st.counters (requestCountKey k pm)).getD
                  ⟨1, 0, 0⟩).current_rpm⟩ 60] := by
          simp [async_log_failure_event, hk, hmsg, hg]
        refine ⟨by rw [he]; rfl, ?_⟩
        intro q hq
        rw [failureFinalState, he]
        simp [applyOps, applyOp, hq]
    | some cap =>
        have he : async_log_failure_event kw pm st =
            [CacheOp.incrGlobal (-1),
              CacheOp.setCounter (requestCountKey k pm)
              ⟨max (((st.counters (requestCountKey k pm)).getD
                  ⟨1, 0, 0⟩).current_requests - 1) 0,
                ((st.counters (requestCountKey k pm)).getD
                  ⟨1, 0, 0⟩).current_tpm,
                ((st.counters (requestCountKey k pm)).getD
                  ⟨1, 0, 0⟩).current_rpm⟩ 60] := by
          simp [async_log_failure_event, hk, hmsg, hg]
        refine ⟨by rw [he]; rfl, ?_⟩
        intro q hq
        rw [failureFinalState, he]
        simp [applyOps, applyOp, hq]

/-- Witness for C9 at a concrete input: global cap set, unrelated error
"boom" — the global counter is decremented, the api_key bucket released
with TTL 60, and every other bucket untouched. -/
theorem failure_reconciliation_witness :
    async_log_failure_event kwC9 "m" stEmpty =
      [CacheOp.incrGlobal (-1),
        CacheOp.setCounter (requestCountKey "k" "m") ⟨0, 0, 0⟩ 60] ∧
    ∀ q, q ≠ requestCountKey "k" "m" →
      (failureFinalState kwC9 "m" stEmpty).counters q = stEmpty.counters q :=
  (failure_reconciliation_behavior kwC9 "m" stEmpty "k" rfl).2 (by decide)

/-- Claim C10: when the kwargs metadata carries no `user_api_key`, the
failure hook performs no cache mutation at all — in particular the global
in-flight counter is not decremented even when a global cap was set. -/
theorem failure_no_api_key_no_op (kw : FailureKwargs) (pm : String)
    (st : CacheState) (hk : kw.user_api_key = none) :
    async_log_failure_event kw pm st = [] ∧
    failureFinalState kw pm st = st := by
  have he : async_log_failure_event kw pm st = [] := by
    simp [async_log_failure_event, hk]
  exact ⟨he, by rw [failureFinalState, he]; rfl⟩

/-- Witness for C10 at a concrete input with a global cap set. -/
theorem failure_no_api_key_no_op_witness :
    async_log_failure_event ⟨some 3, none, "boom"⟩ "m" stEmpty = [] ∧
    failureFinalState ⟨some 3, none, "boom"⟩ "m" stEmpty = stEmpty :=
  failure_no_api_key_no_op ⟨some 3, none, "boom"⟩ "m" stEmpty rfl


/-- Applying writes whose values are all non-negative preserves the
bucket invariant. -/
theorem applyWrites_nonneg {f : String → Option Counter}
    {ws : List (String × Counter)} (hf : NonnegCounters f)
    (hw : ∀ w ∈ ws, (Prod.snd w).Nonneg) :
    NonnegCounters (applyWrites f ws) := by
  induction ws generalizing f with
  | nil => exact hf
  | cons a l ih =>
      apply ih
      · intro k c hkc
        simp only at hkc
        split at hkc
        · cases hkc
          exact hw a (by simp)
        · exact hf k c hkc
      · intro w hwl
        exact hw w (by simp [hwl])

/-- Applying one cache mutation with non-negative written values
preserves the bucket invariant. -/
theorem applyOp_nonneg {st : CacheState} {op : CacheOp}
    (hst : NonnegCounters st.counters) (hop : op.goodWrites) :
    NonnegCounters (applyOp st op).counters := by
  cases op with
  | incrGlobal d => exact hst
  | setCounter k v ttl =>
      intro q c hqc
      simp only [applyOp] at hqc
      split at hqc
      · cases hqc; exact hop
      · exact hst q c hqc
  | batchSet ws ttl => exact applyWrites_nonneg hst hop

/-- Applying a list of cache mutations with non-negative written values
preserves the bucket invariant. -/
theorem applyOps_nonneg {st : CacheState} {ops : List CacheOp}
    (hst : NonnegCounters st.counters)
    (hops : ∀ op ∈ ops, CacheOp.goodWrites op) :
    NonnegCounters (applyOps st ops).counters := by
  induction ops generalizing st with
  | nil => exact hst
  | cons o l ih =>
      exact ih (applyOp_nonneg hst (hops o (by simp)))
        (fun op h => hops op (by simp [h]))

/-- The shared check-and-reserve rule only schedules non-negative
counter values. -/
theorem check_key_in_limits_good {mpr tpml rpml : Int}
    {current : Option Counter} {key rt : String}
    {ws : List (String × Counter)}
    (hok : check_key_in_limits mpr tpml rpml current key rt = Except.ok ws)
    (hc : ∀ c, current = some c → c.Nonneg) :
    ∀ w ∈ ws, (Prod.snd w).Nonneg := by
  cases current with
  | none =>
      simp only [check_key_in_limits] at hok
      split at hok
      · exact absurd hok (by simp)
      · cases hok
        intro w hw
        simp only [List.mem_singleton] at hw
        subst hw
        refine ⟨?_, ?_, ?_⟩ <;> simp
  | some c =>
      obtain ⟨a, b, d⟩ := hc c rfl
      simp only [check_key_in_limits] at hok
      split at hok
      · cases hok
        intro w hw
        simp only [List.mem_singleton] at hw
        subst hw
        refine ⟨?_, ?_, ?_⟩ <;> simp <;> omega
      · exact absurd hok (by simp)

/-- The inline api_key-scope check only schedules non-negative counter
values. -/
theorem apiKeyCheck_good {ak : Option String} {mpr tpml rpml : Int}
    {pm : String} {counters : String → Option Counter}
    {ws : List (String × Counter)}
    (hok : apiKeyCheck ak mpr tpml rpml pm counters = Except.ok ws)
    (hf : NonnegCounters counters) :
    ∀ w ∈ ws, (Prod.snd w).Nonneg := by
  cases ak with
  | none =>
      simp only [apiKeyCheck] at hok
      cases hok
      simp
  | some k =>
      simp only [apiKeyCheck] at hok
      split at hok
      · cases hok; simp
      · split at hok
        · exact absurd hok (by simp)
        · split at hok
          · cases hok
            intro w hw
            simp only [List.mem_singleton] at hw
            subst hw
            refine ⟨?_, ?_, ?_⟩ <;> simp
          · rename_i c hcur
            obtain ⟨a, b, d⟩ := hf _ _ hcur
            split at hok
            · cases hok
              intro w hw
              simp only [List.mem_singleton] at hw
              subst hw
              refine ⟨?_, ?_, ?_⟩ <;> simp <;> omega
            · exact absurd hok (by simp)

/-- The RPM step of the per-model check only schedules non-negative
counter values. -/
theorem perModelRpmStep_good {auth : UserAPIKeyAuth}
    {dataModel : Option String} {key : String} {c : Counter}
    {rl : Option Int} {ws : List (String × Counter)}
    (hok : perModelRpmStep auth dataModel key c rl = Except.ok ws)
    (hcn : c.Nonneg) : ∀ w ∈ ws, (Prod.snd w).Nonneg := by
  obtain ⟨a, b, d⟩ := hcn
  cases rl with
  | none =>
      simp only [perModelRpmStep] at hok
      cases hok
      intro w hw
      simp only [List.mem_singleton] at hw
      subst hw
      refine ⟨?_, ?_, ?_⟩ <;> simp <;> omega
  | some r =>
      simp only [perModelRpmStep] at hok
      split at hok
      · exact absurd hok (by simp)
      · cases hok
        intro w hw
        simp only [List.mem_singleton] at hw
        subst hw
        refine ⟨?_, ?_, ?_⟩ <;> simp <;> omega

/-- The per-model check only schedules non-negative counter values. -/
theorem perModelCheck_good {auth : UserAPIKeyAuth}
    {dataModel : Option String} {pm : String}
    {counters : String → Option Counter} {ws : List (String × Counter)}
    (hok : perModelCheck auth dataModel pm counters = Except.ok ws)
    (hf : NonnegCounters counters) :
    ∀ w ∈ ws, (Prod.snd w).Nonneg := by
  simp only [perModelCheck] at hok
  split at hok
  · split at hok
    · cases hok
      intro w hw
      simp only [List.mem_singleton] at hw
      subst hw
      refine ⟨?_, ?_, ?_⟩ <;> simp
    · rename_i c hcur
      have hcn := hf _ _ hcur
      split at hok
      · split at hok
        · split at hok
          · exact absurd hok (by simp)
          · exact perModelRpmStep_good hok hcn
        · exact perModelRpmStep_good hok hcn
      · cases hok; simp
  · cases hok; simp

/-- The user-scope leg only schedules non-negative counter values. -/
theorem userScopeCheck_good {auth : UserAPIKeyAuth} {pm : String}
    {counters : String → Option Counter} {ws : List (String × Counter)}
    (hok : userScopeCheck auth pm counters = Except.ok ws)
    (hf : NonnegCounters counters) :
    ∀ w ∈ ws, (Prod.snd w).Nonneg := by
  cases hu : auth.user_id with
  | none => simp only [userScopeCheck, hu] at hok; cases hok; simp
  | some uid =>
      simp only [userScopeCheck, hu] at hok
      exact check_key_in_limits_good hok (fun c h => hf _ _ h)

/-- The team-scope leg only schedules non-negative counter values. -/
theorem teamScopeCheck_good {auth : UserAPIKeyAuth} {pm : String}
    {counters : String → Option Counter} {ws : List (String × Counter)}
    (hok : teamScopeCheck auth pm counters = Except.ok ws)
    (hf : NonnegCounters counters) :
    ∀ w ∈ ws, (Prod.snd w).Nonneg := by
  cases hu : auth.team_id with
  | none => simp only [teamScopeCheck, hu] at hok; cases hok; simp
  | some tid =>
      simp only [teamScopeCheck, hu] at hok
      exact check_key_in_limits_good hok (fun c h => hf _ _ h)

/-- The end-user-scope leg only schedules non-negative counter values. -/
theorem endUserScopeCheck_good {auth : UserAPIKeyAuth} {pm : String}
    {counters : String → Option Counter} {ws : List (String × Counter)}
    (hok : endUserScopeCheck auth pm counters = Except.ok ws)
    (hf : NonnegCounters counters) :
    ∀ w ∈ ws, (Prod.snd w).Nonneg := by
  cases hu : auth.end_user_id with
  | none => simp only [endUserScopeCheck, hu] at hok; cases hok; simp
  | some eid =>
      simp only [endUserScopeCheck, hu] at hok
      split at hok
      · cases hok; simp
      · exact check_key_in_limits_good hok (fun c h => hf _ _ h)

/-- All admission scope checks together only schedule non-negative
counter values. -/
theorem scopeChecks_good {auth : UserAPIKeyAuth} {dataModel : Option String}
    {pm : String} {counters : String → Option Counter}
    {ws : List (String × Counter)}
    (hok : scopeChecks auth dataModel pm counters = Except.ok ws)
    (hf : NonnegCounters counters) :
    ∀ w ∈ ws, (Prod.snd w).Nonneg := by
  simp only [scopeChecks] at hok
  cases h1 : apiKeyCheck auth.api_key
      (auth.max_parallel_requests.getD sysMaxsize)
      (auth.tpm_limit.getD sysMaxsize) (auth.rpm_limit.getD sysMaxsize) pm
      counters with
  | error e => rw [h1] at hok; exact absurd hok (by simp [Except.bind])
  | ok w1 =>
      rw [h1] at hok
      simp only [Except.bind] at hok
      cases h2 : perModelCheck auth dataModel pm counters with
      | error e => rw [h2] at hok; exact absurd hok (by simp)
      | ok w2 =>
          rw [h2] at hok
          cases h3 : userScopeCheck auth pm counters with
          | error e => rw [h3] at hok; exact absurd hok (by simp)
          | ok w3 =>
              rw [h3] at hok
              cases h4 : teamScopeCheck auth pm counters with
              | error e => rw [h4] at hok; exact absurd hok (by simp)
              | ok w4 =>
                  rw [h4] at hok
                  cases h5 : endUserScopeCheck auth pm counters with
                  | error e => rw [h5] at hok; exact absurd hok (by simp)
                  | ok w5 =>
                      rw [h5] at hok
                      simp only [Except.ok.injEq] at hok
                      subst hok
                      intro w hw
                      simp only [List.mem_append] at hw
                      rcases hw with (((hw | hw) | hw) | hw) | hw
                      · exact apiKeyCheck_good h1 hf w hw
                      · exact perModelCheck_good h2 hf w hw
                      · exact userScopeCheck_good h3 hf w hw
                      · exact teamScopeCheck_good h4 hf w hw
                      · exact endUserScopeCheck_good h5 hf w hw

/-- Every cache mutation the pre-call hook performs writes only
non-negative counter values. -/
theorem preCall_ops_good (auth : UserAPIKeyAuth) (gmpr : Option Int)
    (dataModel : Option String) (pm : String) (st : CacheState)
    (hst : NonnegCounters st.counters) :
    ∀ op ∈ (async_pre_call_hook auth gmpr dataModel pm st).2,
      op.goodWrites := by
  have hfin : ∀ ops0, (∀ op ∈ ops0, CacheOp.goodWrites op) →
      ∀ op ∈ (preCallFinish auth dataModel pm st.counters ops0).2,
        CacheOp.goodWrites op := by
    intro ops0 h0
    simp only [preCallFinish]
    cases hsc : scopeChecks auth dataModel pm st.counters with
    | error e => exact h0
    | ok ws =>
        intro op hop
        simp only [List.mem_append, List.mem_singleton] at hop
        rcases hop with h | h
        · exact h0 op h
        · subst h
          exact scopeChecks_good hsc hst
  cases gmpr with
  | none => exact hfin [] (by simp)
  | some cap =>
      simp only [async_pre_call_hook]
      split_ifs with hge
      · simp
      · exact hfin [CacheOp.incrGlobal 1]
          (by intro op hop; simp at hop; subst hop; trivial)

/-- The success update preserves non-negativity under a non-negative
token total. -/
theorem successNew_good {c : Counter} {t : Int} (hc : c.Nonneg)
    (ht : 0 ≤ t) : (successNew c t).Nonneg := by
  obtain ⟨a, b, d⟩ := hc
  refine ⟨?_, ?_, ?_⟩ <;> simp only [successNew] <;> [skip; omega; omega]
  exact le_max_right _ _

/-- A bucket read with the api-key-style default `{1, 0, 0}` is
non-negative. -/
theorem defaultRead_good {counters : String → Option Counter}
    {key : String} (hf : NonnegCounters counters) :
    ((counters key).getD ⟨1, 0, 0⟩).Nonneg := by
  cases hcur : counters key with
  | none => exact ⟨by norm_num, le_refl 0, le_refl 0⟩
  | some c => exact hf _ _ hcur

/-- The user/team/end-user success legs only schedule non-negative
counter values. -/
theorem successScopeWrites_good {idOpt : Option String} {pm : String}
    {counters : String → Option Counter} {t : Int}
    (hf : NonnegCounters counters) (ht : 0 ≤ t) :
    ∀ w ∈ successScopeWrites idOpt pm counters t, (Prod.snd w).Nonneg := by
  cases idOpt with
  | none => simp [successScopeWrites]
  | some i =>
      intro w hw
      simp only [successScopeWrites, List.mem_singleton] at hw
      subst hw
      apply successNew_good _ ht
      cases hcur : counters (requestCountKey i pm) with
      | none => exact ⟨by norm_num, ht, by norm_num⟩
      | some c => exact hf _ _ hcur

/-- The api-key success leg only schedules non-negative counter values. -/
theorem successApiKeyWrites_good {kw : SuccessKwargs} {pm : String}
    {counters : String → Option Counter} (hf : NonnegCounters counters)
    (ht : 0 ≤ kw.total_tokens) :
    ∀ w ∈ successApiKeyWrites kw pm counters, (Prod.snd w).Nonneg := by
  cases hk : kw.user_api_key with
  | none => simp [successApiKeyWrites, hk]
  | some k =>
      intro w hw
      simp only [successApiKeyWrites, hk, List.mem_singleton] at hw
      subst hw
      exact successNew_good (defaultRead_good hf) ht

/-- The model-group success leg only schedules non-negative counter
values. -/
theorem successModelGroupWrites_good {kw : SuccessKwargs} {pm : String}
    {counters : String → Option Counter} (hf : NonnegCounters counters)
    (ht : 0 ≤ kw.total_tokens) :
    ∀ w ∈ successModelGroupWrites kw pm counters, (Prod.snd w).Nonneg := by
  intro w hw
  simp only [successModelGroupWrites] at hw
  split at hw
  · split at hw
    · simp only [List.mem_singleton] at hw
      subst hw
      exact successNew_good (defaultRead_good hf) ht
    · cases hw
  · cases hw

/-- Every cache mutation the success hook performs writes only
non-negative counter values, given a non-negative token total. -/
theorem success_ops_good (kw : SuccessKwargs) (pm : String)
    (st : CacheState) (hst : NonnegCounters st.counters)
    (ht : 0 ≤ kw.total_tokens) :
    ∀ op ∈ async_log_success_event kw pm st, op.goodWrites := by
  have hbatch : CacheOp.goodWrites
      (CacheOp.batchSet (successWrites kw pm st.counters) 60) := by
    intro w hw
    simp only [successWrites, List.mem_append] at hw
    rcases hw with (((hw | hw) | hw) | hw) | hw
    · exact successApiKeyWrites_good hst ht w hw
    · exact successModelGroupWrites_good hst ht w hw
    · exact successScopeWrites_good hst ht w hw
    · exact successScopeWrites_good hst ht w hw
    · exact successScopeWrites_good hst ht w hw
  cases hg : kw.global_max_parallel_requests with
  | none =>
      simp only [async_log_success_event, hg, List.nil_append,
        List.forall_mem_singleton]
      exact hbatch
  | some cap =>
      simp only [async_log_success_event, hg, List.cons_append,
        List.nil_append, List.forall_mem_cons, List.forall_mem_singleton]
      exact ⟨trivial, hbatch, List.forall_mem_nil _⟩

/-- Every cache mutation the failure hook performs writes only
non-negative counter values. -/
theorem failure_ops_good (kw : FailureKwargs) (pm : String)
    (st : CacheState) (hst : NonnegCounters st.counters) :
    ∀ op ∈ async_log_failure_event kw pm st, op.goodWrites := by
  cases hk : kw.user_api_key with
  | none => simp [async_log_failure_event, hk]
  | some k =>
      have hval : (Counter.mk
          (max (((st.counters (requestCountKey k pm)).getD
            ⟨1, 0, 0⟩).current_requests - 1) 0)
          (((st.counters (requestCountKey k pm)).getD
            ⟨1, 0, 0⟩).current_tpm)
          (((st.counters (requestCountKey k pm)).getD
            ⟨1, 0, 0⟩).current_rpm)).Nonneg := by
        obtain ⟨a, b, d⟩ := @defaultRead_good st.counters (requestCountKey k pm) hst
        exact ⟨le_max_right _ _, b, d⟩
      by_cases hmsg : strContains kw.exception_msg failure_limit_message
      · simp [async_log_failure_event, hk, hmsg]
      · cases hg : kw.global_max_parallel_requests with
        | none =>
            simp only [async_log_failure_event, hk, hmsg, hg,
              Bool.false_eq_true, if_false, List.nil_append,
              List.forall_mem_singleton]
            exact hval
        | some cap =>
            simp only [async_log_failure_event, hk, hmsg, hg,
              Bool.false_eq_true, if_false, List.cons_append,
              List.nil_append, List.forall_mem_cons,
              List.forall_mem_singleton]
            exact ⟨trivial, hval, List.forall_mem_nil _⟩

/-- One hook invocation preserves the bucket invariant. -/
theorem runOp_good {st : CacheState} {op : GateOp}
    (hst : NonnegCounters st.counters) (hop : op.tokensOk) :
    NonnegCounters (runOp st op).counters := by
  cases op with
  | pre auth g m pm =>
      exact applyOps_nonneg hst (preCall_ops_good auth g m pm st hst)
  | success kw pm =>
      exact applyOps_nonneg hst (success_ops_good kw pm st hst hop)
  | failure kw pm =>
      exact applyOps_nonneg hst (failure_ops_good kw pm st hst)

/-- Claim C2: starting from any cache whose buckets satisfy the
wire-format invariant, every sequence of admission,
success-reconciliation and failure-reconciliation invocations with
non-negative reported token totals keeps every stored bucket triple at
`current_requests ≥ 0`, `current_tpm ≥ 0` and `current_rpm ≥ 0`; the
statement quantifies over all sequences, hence covers the state after
each operation. -/
theorem counters_stay_nonneg (st : CacheState) (ops : List GateOp)
    (hst : NonnegCounters st.counters)
    (hops : ∀ op ∈ ops, op.tokensOk) :
    NonnegCounters (runOps st ops).counters := by
  induction ops generalizing st with
  | nil => exact hst
  | cons o l ih =>
      exact ih (runOp st o) (runOp_good hst (hops o (by simp)))
        (fun op h => hops op (by simp [h]))

/-- Witness for C2 at a concrete input: one success reconciliation with
137 tokens against the empty cache keeps every bucket non-negative. -/
theorem counters_stay_nonneg_witness :
    NonnegCounters (runOps stEmpty
      [GateOp.success ⟨none, some "k", some "u", none, none, none, false,
        false, false, 137⟩ "m"]).counters :=
  counters_stay_nonneg stEmpty
    [GateOp.success ⟨none, some "k", some "u", none, none, none, false,
      false, false, 137⟩ "m"]
    (fun k c h => Option.noConfusion h)
    (fun op h => by
      simp only [List.mem_singleton] at h
      subst h
      norm_num [GateOp.tokensOk])

/-- Claim C3 (counterexample): success reconciliation with only a user id
present, an absent user bucket and 137 total tokens writes `{0, 274, 2}`
— the absent counter was read as `{1, 137, 1}`, not as the claimed
default `{1, 0, 0}`, whose update would have produced `{0, 137, 1}`. -/
theorem success_user_default_counterexample :
    async_log_success_event kwC3 "m" stEmpty =
      [CacheOp.batchSet [("u1::m::request_count", ⟨0, 274, 2⟩)] 60] ∧
    successNew ⟨1, 0, 0⟩ 137 ≠ (⟨0, 274, 2⟩ : Counter) :=
  ⟨rfl, by decide⟩

/-- Claim C3 (amended): in success reconciliation a counter absent from
the cache is read as `{current_requests: 1, current_tpm: 0,
current_rpm: 0}` for the api_key and (api_key, model-group) scopes, but
as `{current_requests: 1, current_tpm: total_tokens, current_rpm: 1}`
for the user, team and end_user scopes, before the update
`(max(current-1,0), current_tpm + total_tokens, current_rpm + 1)` is
applied — so with every counter absent the first two scopes yield
`{0, t, 1}` and the last three `{0, t + t, 2}`. -/
theorem success_absent_counter_defaults (t : Int) (st : CacheState)
    (h : ∀ q, st.counters q = none) (k mg uid tid eid pm : String) :
    async_log_success_event
      ⟨none, some k, some uid, some tid, some eid, some mg, true, false,
        false, t⟩ pm st =
      [CacheOp.batchSet
        [(requestCountKey k pm, ⟨0, t, 1⟩),
          (modelRequestCountKey k mg pm, ⟨0, t, 1⟩),
          (requestCountKey uid pm, ⟨0, t + t, 2⟩),
          (requestCountKey tid pm, ⟨0, t + t, 2⟩),
          (requestCountKey eid pm, ⟨0, t + t, 2⟩)] 60] := by
  simp [async_log_success_event, successWrites, successApiKeyWrites,
    successModelGroupWrites, successScopeWrites, successNew, h]

/-- Witness for C3's amended theorem at 137 tokens over the empty cache. -/
theorem success_absent_counter_defaults_witness :
    async_log_success_event
      ⟨none, some "k", some "u", some "tm", some "e", some "g", true, false,
        false, 137⟩ "m" stEmpty =
      [CacheOp.batchSet
        [(requestCountKey "k" "m", ⟨0, 137, 1⟩),
          (modelRequestCountKey "k" "g" "m", ⟨0, 137, 1⟩),
          (requestCountKey "u" "m", ⟨0, 274, 2⟩),
          (requestCountKey "tm" "m", ⟨0, 274, 2⟩),
          (requestCountKey "e" "m", ⟨0, 274, 2⟩)] 60] :=
  success_absent_counter_defaults 137 stEmpty (fun _ => rfl) "k" "g" "u"
    "tm" "e" "m"
